import Mathlib

/-!
# World IM — verification of the world event/relationship engine and agent cognition engine

Shallow embedding of `src/world.js` (class `World`) and `src/agent.js` (class `Agent`).
JS `Map`s are modelled as association lists preserving insertion order; JS numbers that
carry fractional weights are modelled as rationals; `uuidv4()` is modelled as a fresh
counter carried by the world (only freshness of ids is ever used); `Date.now()` is
modelled as a world-carried clock (timestamps are never inspected by the engine).
-/

namespace WorldIM

section AList

variable {κ α : Type} [DecidableEq κ]

/-- `Map.get k` — first binding of `k`, if any. -/
def alistGet (m : List (κ × α)) (k : κ) : Option α :=
  match m with
  | [] => none
  | (k', v) :: rest => if k' = k then some v else alistGet rest k

/-- `Map.set k v` — update in place when the key exists, append otherwise. -/
def alistSet (m : List (κ × α)) (k : κ) (v : α) : List (κ × α) :=
  match m with
  | [] => [(k, v)]
  | (k', v') :: rest => if k' = k then (k, v) :: rest else (k', v') :: alistSet rest k v

/-- `Map.has k`. -/
def alistHas (m : List (κ × α)) (k : κ) : Bool :=
  (alistGet m k).isSome

/-- `Map.delete k`. -/
def alistDelete (m : List (κ × α)) (k : κ) : List (κ × α) :=
  m.filter (fun p => p.1 ≠ k)

end AList

/-- JS `Math.min` on rationals. -/
def jsMin (a b : ℚ) : ℚ :=
  if a ≤ b then a else b

/-- JS `Math.max` on rationals. -/
def jsMax (a b : ℚ) : ℚ :=
  if a ≤ b then b else a

/-- JS `arr.slice(-count)`: the last `count` elements; `slice(-0)` is the whole array. -/
def jsSliceLast {α : Type} (l : List α) (count : Nat) : List α :=
  if count = 0 then l else l.drop (l.length - count)

/-- JS `String.prototype.toLowerCase`, character by character (the engine only
ever lowercases ASCII interest keywords and message content). -/
def jsToLower (s : String) : String :=
  ⟨s.data.map Char.toLower⟩

/-- Split a character list at every whitespace character. Splitting at each
single separator (rather than at runs, as `/\s+/` does) yields extra empty
pieces; every caller filters by a positive length bound, where the two agree. -/
def splitWs : List Char → List (List Char)
  | [] => [[]]
  | c :: rest =>
    if c.isWhitespace then [] :: splitWs rest
    else
      match splitWs rest with
      | t :: ts => (c :: t) :: ts
      | [] => [[c]]

/-- `needle` occurs as a contiguous sublist of the haystack. -/
def hasSubList (needle : List Char) : List Char → Bool
  | [] => needle.isEmpty
  | c :: rest => needle.isPrefixOf (c :: rest) || hasSubList needle rest

/-- JS `haystack.includes(needle)` — substring containment. -/
def jsIncludes (s sub : String) : Bool :=
  hasSubList sub.data s.data

/-- An inhabitant as the world sees it: opaque id / name / kind. -/
structure Inhabitant where
  id : String
  name : String
  kind : String
deriving DecidableEq, Repr

/-- Type-specific payload of a world event (`recordEvent`'s `data`).
The opaque `meta` bag of message events is never read by the engine and is omitted. -/
inductive EventData where
  | enter (inhabitantId inhabitantName inhabitantKind : String)
  | leave (inhabitantId inhabitantName : String)
  | message (fromId fromName toId content : String) (replyTo : Option Nat)
deriving DecidableEq, Repr

/-- A recorded world event. `classification` is `none` at record time and set on
message events after classification (the JS code mutates the recorded object). -/
structure Event where
  id : Nat
  sequence : Nat
  timestamp : Nat
  data : EventData
  classification : Option String
deriving DecidableEq, Repr

def Event.isMessage (e : Event) : Bool :=
  match e.data with
  | .message .. => true
  | _ => false

/-- `m.content` for message events (only ever used on message events). -/
def Event.msgContent (e : Event) : String :=
  match e.data with
  | .message _ _ _ c _ => c
  | _ => ""

/-- A relationship edge (`relationships[a][b]`). -/
structure Rel where
  model : String
  entanglement : ℚ
  interactions : Nat
  lastInteraction : Option Nat
deriving DecidableEq, Repr

/-- The fresh default edge created on `enter`. -/
def defaultRel : Rel :=
  { model := "default", entanglement := 0, interactions := 0, lastInteraction := none }

/-- The `World` state: memory, sequence counter, active inhabitants, relationship
graph, plus the modelled uuid supply and clock. -/
structure World where
  memory : List Event
  sequenceCounter : Nat
  inhabitants : List (String × Inhabitant)
  relationships : List (String × List (String × Rel))
  uuidSource : Nat
  clock : Nat
deriving DecidableEq, Repr

def World.empty : World :=
  { memory := [], sequenceCounter := 0, inhabitants := [], relationships := [],
    uuidSource := 0, clock := 0 }

/-- `recordEvent(data)`: bump the sequence counter and append the event. -/
def World.recordEvent (w : World) (d : EventData) : Event × World :=
  let e : Event :=
    { id := w.uuidSource, sequence := w.sequenceCounter + 1, timestamp := w.clock,
      data := d, classification := none }
  (e, { w with sequenceCounter := w.sequenceCounter + 1,
               uuidSource := w.uuidSource + 1,
               memory := w.memory ++ [e] })

/-- One broadcast touch of an edge: `interactions++`, `lastInteraction = seq`,
promote once `interactions > 2`; entanglement untouched. -/
def bumpBroadcast (seq : Nat) (r : Rel) : Rel :=
  let r' := { r with interactions := r.interactions + 1, lastInteraction := some seq }
  if r'.interactions > 2 then { r' with model := "non-default" } else r'

/-- One direct-message touch of an edge: `interactions++`, entanglement `+inc`
capped at 1, `lastInteraction = seq`, promote once `interactions > 1`. -/
def bumpDirect (inc : ℚ) (seq : Nat) (r : Rel) : Rel :=
  let r' := { r with interactions := r.interactions + 1,
                     entanglement := jsMin 1 (r.entanglement + inc),
                     lastInteraction := some seq }
  if r'.interactions > 1 then { r' with model := "non-default" } else r'

/-- `updateRelationship(fromId, toId, message)` given the message's sequence. -/
def World.updateRelationship (w : World) (fromId toId : String) (seq : Nat) : World :=
  if toId = "world" then
    -- Broadcast: touch relationships[fromId][other] for every other active inhabitant.
    { w with relationships :=
        w.inhabitants.foldl (fun rs p =>
          if p.1 ≠ fromId then
            match alistGet rs fromId with
            | some m =>
              match alistGet m p.1 with
              | some r => alistSet rs fromId (alistSet m p.1 (bumpBroadcast seq r))
              | none => rs
            | none => rs
          else rs) w.relationships }
  else
    -- Direct message: stronger entanglement, then the reciprocal edge.
    let rels1 :=
      match alistGet w.relationships fromId with
      | some m =>
        match alistGet m toId with
        | some r => alistSet w.relationships fromId (alistSet m toId (bumpDirect (1/10) seq r))
        | none => w.relationships
      | none => w.relationships
    let rels2 :=
      match alistGet rels1 toId with
      | some m =>
        match alistGet m fromId with
        | some r => alistSet rels1 toId (alistSet m fromId (bumpDirect (1/20) seq r))
        | none => rels1
      | none => rels1
    { w with relationships := rels2 }

/-- `extractTopic(content)`: first lowercase whitespace-split token of length > 4. -/
def extractTopic (content : String) : Option String :=
  if content = "" then none
  else
    (((splitWs (jsToLower content).data).map (fun t => (⟨t⟩ : String))).filter
      (fun t => t.length > 4)).head?

/-- `getRecentMessages(count)`: the last `count` message events. -/
def World.getRecentMessages (w : World) (count : Nat) : List Event :=
  jsSliceLast (w.memory.filter Event.isMessage) count

/-- `classifyExchange(message)`: fork when the topic is fresh among the recent 20
recorded messages, perturbation otherwise. Called on the state in which the
message has already been recorded. -/
def World.classifyExchange (w : World) (content : String) : String :=
  let recentTopics := (w.getRecentMessages 20).filterMap (fun m => extractTopic m.msgContent)
  match extractTopic content with
  | some t => if t ∈ recentTopics then "perturbation" else "fork"
  | none => "perturbation"

/-- `enter(inhabitant)`: add to the active set, reset the newcomer's relationship
map, create fresh default edges in both directions with every other active
inhabitant, record an `enter` event. -/
def World.enter (w : World) (i : Inhabitant) : Event × World :=
  let inhabitants := alistSet w.inhabitants i.id i
  let rels0 := alistSet w.relationships i.id []
  let rels :=
    inhabitants.foldl (fun rs p =>
      if p.1 ≠ i.id then
        let rs1 :=
          match alistGet rs i.id with
          | some m => alistSet rs i.id (alistSet m p.1 defaultRel)
          | none => rs
        -- Other inhabitants also form a default model of the newcomer.
        match alistGet rs1 p.1 with
        | some m => alistSet rs1 p.1 (alistSet m i.id defaultRel)
        | none => rs1
      else rs) rels0
  World.recordEvent
    { w with inhabitants := inhabitants, relationships := rels }
    (.enter i.id i.name i.kind)

/-- `leave(inhabitantId)`: `null` if not active; otherwise record a `leave` event
and remove from the active set (relationship edges are retained). -/
def World.leave (w : World) (inhabitantId : String) : Option Event × World :=
  match alistGet w.inhabitants inhabitantId with
  | none => (none, w)
  | some i =>
    let r := w.recordEvent (.leave inhabitantId i.name)
    (some r.1, { r.2 with inhabitants := alistDelete r.2.inhabitants inhabitantId })

/-- The argument object of `processMessage` (the opaque `meta` bag is never read
by the engine and is omitted). -/
structure MsgInput where
  fromId : String
  toId : String
  content : String
  replyTo : Option Nat
deriving DecidableEq, Repr

/-- `processMessage({from, to, content, replyTo, meta})` minus the final `emit`
(emission and its reentrant effects are modelled by the `Op` runner below).
Returns `null` and leaves the world untouched when the sender is not active;
otherwise records the message, updates the relationship graph, classifies the
exchange (on the state that already holds the new message, as the source does),
and stores the classification on the recorded event. -/
def World.processMessage (w : World) (m : MsgInput) : Option Event × World :=
  match alistGet w.inhabitants m.fromId with
  | none => (none, w)
  | some sender =>
    let r := w.recordEvent (.message m.fromId sender.name m.toId m.content m.replyTo)
    let w2 := r.2.updateRelationship m.fromId m.toId r.1.sequence
    let e2 := { r.1 with classification := some (w2.classifyExchange m.content) }
    (some e2, { w2 with memory := w2.memory.dropLast ++ [e2] })

/-- An externally driven operation on the world. Each carries the list of
operations that subscribed handlers perform reentrantly during the `emit` that
ends the corresponding method (handlers run synchronously, in order, before the
method returns; an aborted `processMessage`/`leave` does not emit). -/
inductive Op where
  | enter (i : Inhabitant) (handlers : List Op)
  | leave (id : String) (handlers : List Op)
  | message (m : MsgInput) (handlers : List Op)
deriving Repr

mutual

/-- Run one operation, including its handlers' reentrant operations. -/
def runOp : Op → World → World
  | .enter i hs, w => runOps hs (w.enter i).2
  | .leave id hs, w =>
    match w.leave id with
    | (none, w') => w'
    | (some _, w') => runOps hs w'
  | .message m hs, w =>
    match w.processMessage m with
    | (none, w') => w'
    | (some _, w') => runOps hs w'

/-- Run a list of operations in order. -/
def runOps : List Op → World → World
  | [], w => w
  | o :: os, w => runOps os (runOp o w)

end

/-- Outgoing edge `relationships[a][b]`, as read through `getRelationships`. -/
def World.edge (w : World) (a b : String) : Option Rel :=
  match alistGet w.relationships a with
  | some m => alistGet m b
  | none => none

/-! ## Agent cognition engine (`src/agent.js`) -/

/-- The wire shape of a message event as an agent consumes it. -/
structure Msg where
  id : Nat
  sequence : Nat
  timestamp : Nat
  fromId : String
  fromName : String
  toId : String
  content : String
  replyTo : Option Nat
deriving DecidableEq, Repr

/-- Depth-2 nested belief: what the agent thinks the other thinks of it. -/
structure TheirModelOfMe where
  trust : ℚ
  interest : ℚ
deriving DecidableEq, Repr

/-- An agent's model of another inhabitant (Dimension 2). -/
structure ModelOfOther where
  name : String
  beliefs : List String
  style : String
  predictedValues : List String
  trust : ℚ
  messageCount : Nat
  lastSeen : Option Nat
  theirModelOfMe : TheirModelOfMe
deriving DecidableEq, Repr

/-- A lossy personal-memory entry (Dimension 3). -/
structure ExperienceRecord where
  sequence : Nat
  fromId : String
  fromName : String
  summary : String
  evaluation : ℚ
  timestamp : Nat
deriving DecidableEq, Repr

/-- The `Agent` state. -/
structure Agent where
  id : String
  name : String
  kind : String
  personality : String
  interests : List String
  style : String
  values : List String
  evaluations : List (Nat × ℚ)
  attentionBudget : ℚ
  models : List (String × ModelOfOther)
  experienceLog : List ExperienceRecord
  commitments : List String
  conversationTopics : List String
  mood : String
  engagement : ℚ
  silenceTicks : Nat
deriving DecidableEq, Repr

/-- The weight computed by `evaluate(message)` (Dimension 1): +0.6 direct /
+0.2 broadcast, +0.3 once for an interest hit, +0.15 for a trusted sender,
+0.15 for a question mark, clamped to [-1, 1]. -/
def Agent.evaluateWeight (a : Agent) (m : Msg) : ℚ :=
  let w1 : ℚ := if m.toId = a.id then 3/5 else if m.toId = "world" then 1/5 else 0
  let content := jsToLower m.content
  let w2 := w1 + (if a.interests.any (fun i => jsIncludes content (jsToLower i)) then 3/10 else 0)
  let w3 := w2 +
    (match alistGet a.models m.fromId with
     | some mo => if mo.trust > 1/2 then 3/20 else 0
     | none => 0)
  let w4 := w3 + (if jsIncludes content "?" then 3/20 else 0)
  jsMin 1 (jsMax (-1) w4)

/-- `evaluate(message)`: compute the weight and cache it by message id. -/
def Agent.evaluate (a : Agent) (m : Msg) : ℚ × Agent :=
  (a.evaluateWeight m, { a with evaluations := alistSet a.evaluations m.id (a.evaluateWeight m) })

/-- `summarize(content)`: truncate to 80 characters with an ellipsis. -/
def Agent.summarize (content : String) : String :=
  if content = "" then ""
  else if content.length ≤ 80 then content
  else (⟨content.data.take 77⟩ : String) ++ "..." 

/-- `extractConversationTopic(content)`: first lowercase whitespace-split token of
length > 5. -/
def extractConversationTopic (content : String) : Option String :=
  if content = "" then none
  else
    (((splitWs (jsToLower content).data).map (fun t => (⟨t⟩ : String))).filter
      (fun t => t.length > 5)).head?

/-- `integrateExperience(message, evaluation)` (Dimension 3): retain the entry only
when the evaluation exceeds 0.3; when the log exceeds 100 entries compact it to the
first 10 plus the last 80; track a rolling 20-topic window. -/
def Agent.integrateExperience (a : Agent) (m : Msg) (evaluation : ℚ) : Agent :=
  let log1 :=
    if evaluation > 3/10 then
      a.experienceLog ++
        [{ sequence := m.sequence, fromId := m.fromId, fromName := m.fromName,
           summary := Agent.summarize m.content, evaluation := evaluation,
           timestamp := m.timestamp }]
    else a.experienceLog
  let log2 := if log1.length > 100 then log1.take 10 ++ jsSliceLast log1 80 else log1
  let topics :=
    match extractConversationTopic m.content with
    | some t =>
      let ts := a.conversationTopics ++ [t]
      if ts.length > 20 then jsSliceLast ts 20 else ts
    | none => a.conversationTopics
  { a with experienceLog := log2, conversationTopics := topics }

/-- The slice of `getState()` that `shouldRespond` consumes. -/
structure WorldState where
  inhabitantCount : Nat
  messageCount : Nat
  totalEvents : Nat
deriving DecidableEq, Repr

/-- `getState()` restricted to its numeric summary fields. -/
def World.getState (w : World) : WorldState :=
  { inhabitantCount := w.inhabitants.length,
    messageCount := (w.memory.filter Event.isMessage).length,
    totalEvents := w.memory.length }

/-- `shouldRespond(message, evaluation, worldState)`: true on direct address,
false on the agent's own messages, otherwise a pseudo-random draw against
`evaluation·0.5 + min(0.3, silenceTicks·0.05)`, divided by
`log2(inhabitantCount + 1)` (with `inhabitantCount || 1`), times the engagement
scalar. `rand` stands for the `Math.random()` draw. -/
def Agent.shouldRespond (a : Agent) (m : Msg) (evaluation : ℚ) (ws : WorldState)
    (rand : ℝ) : Prop :=
  if m.toId = a.id then True
  else if m.fromId = a.id then False
  else
    rand <
      (((evaluation * (1/2) + jsMin (3/10) ((a.silenceTicks : ℚ) * (1/20)) : ℚ) : ℝ) /
          Real.logb 2 (((if ws.inhabitantCount = 0 then 1 else ws.inhabitantCount) : ℕ) + 1)) *
        ((a.engagement : ℚ) : ℝ)

/-! ## Concrete fixtures used by witnesses and counterexamples -/

def inhA : Inhabitant := { id := "A", name := "Alice", kind := "agent" }

def inhB : Inhabitant := { id := "B", name := "Bob", kind := "agent" }

/-- A direct message from A to B. -/
def msgDirectAB : MsgInput := { fromId := "A", toId := "B", content := "hi", replyTo := none }

/-- A broadcast from A. -/
def msgBroadcastA : MsgInput :=
  { fromId := "A", toId := "world", content := "hello", replyTo := none }

/-- The spec's classification example, broadcast into a world with no prior messages. -/
def msgBiology : MsgInput :=
  { fromId := "A", toId := "world", content := "Biology is fascinating", replyTo := none }

/-- World after A alone entered. -/
def worldA : World := (World.empty.enter inhA).2

/-- World after A and B entered. -/
def worldAB : World := (worldA.enter inhB).2

/-- World after A and B entered and A sent two direct messages to B. -/
def worldC6 : World :=
  runOps [.message msgDirectAB [], .message msgDirectAB []] worldAB

/-- Worlds after A and B entered and A broadcast one / two / three times. -/
def worldBroadcast1 : World := runOp (.message msgBroadcastA []) worldAB

def worldBroadcast2 : World := runOp (.message msgBroadcastA []) worldBroadcast1

def worldBroadcast3 : World := runOp (.message msgBroadcastA []) worldBroadcast2

/-- A qualifying experience record with a given sequence number. -/
def expRec (n : Nat) : ExperienceRecord :=
  { sequence := n, fromId := "B", fromName := "Bob", summary := "note", evaluation := 1,
    timestamp := 0 }

/-- An agent template with empty dynamic state. -/
def baseAgent : Agent :=
  { id := "A", name := "Alice", kind := "agent", personality := "curious and thoughtful",
    interests := [], style := "conversational", values := [], evaluations := [],
    attentionBudget := 1, models := [], experienceLog := [], commitments := [],
    conversationTopics := [], mood := "neutral", engagement := 1/2, silenceTicks := 0 }

/-- An agent whose experience log already holds 100 qualifying entries (sequences 1..100). -/
def agentFullLog : Agent :=
  { baseAgent with experienceLog := (List.range 100).map (fun i => expRec (i + 1)) }

/-- The 101st qualifying message (sequence 101). -/
def msg101 : Msg :=
  { id := 101, sequence := 101, timestamp := 0, fromId := "B", fromName := "Bob",
    toId := "A", content := "note", replyTo := none }

/-- A message the agent sent to itself (from == to == own id). -/
def selfMsg : Msg :=
  { id := 7, sequence := 7, timestamp := 0, fromId := "A", fromName := "Alice",
    toId := "A", content := "talking to myself", replyTo := none }

/-- A message the agent sent to someone else. -/
def ownMsgToB : Msg :=
  { id := 8, sequence := 8, timestamp := 0, fromId := "A", fromName := "Alice",
    toId := "B", content := "hello", replyTo := none }

/-- A direct, question-bearing, interest-matching message from B to A. -/
def msgC8 : Msg :=
  { id := 9, sequence := 9, timestamp := 0, fromId := "B", fromName := "Bob",
    toId := "A", content := "What do you think about math?", replyTo := none }

/-- An agent interested in "math" that trusts sender B. -/
def agentC8 : Agent :=
  { baseAgent with
    interests := ["math"],
    models := [("B",
      { name := "Bob", beliefs := [], style := "unknown", predictedValues := [],
        trust := 7/10, messageCount := 3, lastSeen := some 0,
        theirModelOfMe := { trust := 1/2, interest := 1/2 } })] }

/-- A small world-state snapshot. -/
def wsTwo : WorldState := { inhabitantCount := 2, messageCount := 0, totalEvents := 2 }

/-- A message from an active sender to an id that never entered the world. -/
def msgToUnknown : MsgInput :=
  { fromId := "A", toId := "Z", content := "anyone there?", replyTo := none }

/-- Ops with a reentrant `processMessage` issued from within a message handler. -/
def opsReentrant : List Op :=
  [.enter inhA [], .enter inhB [],
   .message msgBroadcastA [.message msgDirectAB [], .leave "B" []],
   .message msgDirectAB []]

/-! ## The sequence-numbering invariant (Law 1) -/

/-- Law 1 as an invariant: the counter mirrors the log length and the `i`-th
recorded event carries sequence number `i + 1`. -/
def SeqInv (w : World) : Prop :=
  w.sequenceCounter = w.memory.length ∧
  ∀ i, (h : i < w.memory.length) → (w.memory[i]).sequence = i + 1

/-! ## Helper lemmas -/

theorem updateRelationship_memory (w : World) (f t : String) (s : Nat) :
    (w.updateRelationship f t s).memory = w.memory := by
  unfold World.updateRelationship
  split <;> rfl

theorem updateRelationship_sequenceCounter (w : World) (f t : String) (s : Nat) :
    (w.updateRelationship f t s).sequenceCounter = w.sequenceCounter := by
  unfold World.updateRelationship
  split <;> rfl

/-- When the recipient id has no relationship map and the sender has no edge to
it, a direct-message relationship update is a no-op. -/
theorem updateRelationship_unknown_to (w : World) (f t : String) (s : Nat)
    (ht : t ≠ "world") (h1 : alistGet w.relationships t = none)
    (h2 : w.edge f t = none) :
    w.updateRelationship f t s = w := by
  unfold World.updateRelationship
  rw [if_neg ht]
  have hrels1 :
      (match alistGet w.relationships f with
        | some m =>
          match alistGet m t with
          | some r => alistSet w.relationships f (alistSet m t (bumpDirect (1/10) s r))
          | none => w.relationships
        | none => w.relationships) = w.relationships := by
    unfold World.edge at h2
    cases hf : alistGet w.relationships f with
    | none => rfl
    | some mm =>
      have h2' : alistGet mm t = none := by rw [hf] at h2; exact h2
      simp only [h2']
  simp only [hrels1, h1]

/-! ## Claim theorems -/

/-- C1: the spec requires that a new message whose topic is absent from the most
recent 20 recorded messages be classified `fork`. In a world with no recorded
message at all, the broadcast "Biology is fascinating" (topic "biology") is
nevertheless classified `perturbation`: `processMessage` records the message
before classifying, so the message's own topic is always among the recent
topics and the `fork` branch is unreachable. -/
theorem C1_fresh_biology_message_is_perturbation :
    (worldA.processMessage msgBiology).1.map Event.classification =
      some (some "perturbation") := by
  with_unfolding_all rfl

/-- C2 counterexample: an agent whose log holds 100 qualifying entries (sequences
1–100) receiving a 101st qualifying entry (sequence 101) compacts to the 90
entries 1–10 and 22–101, not to the 20 entries 1–10 and 92–101 named by the
claim. -/
theorem C2_counterexample :
    (agentFullLog.integrateExperience msg101 1).experienceLog.map
        ExperienceRecord.sequence =
      (List.range 10).map (· + 1) ++ (List.range 80).map (· + 22) ∧
    (agentFullLog.integrateExperience msg101 1).experienceLog.map
        ExperienceRecord.sequence ≠
      (List.range 10).map (· + 1) ++ (List.range 10).map (· + 92) := by
  have h :
      (agentFullLog.integrateExperience msg101 1).experienceLog.map
          ExperienceRecord.sequence =
        (List.range 10).map (· + 1) ++ (List.range 80).map (· + 22) := by
    with_unfolding_all rfl
  exact ⟨h, by rw [h]; decide⟩

/-- C2 amended: when the experience log holds 100 qualifying entries and a new
entry qualifies (evaluation > 0.3), `integrateExperience` compacts the log to
the first 10 entries plus the 80 most recent, i.e. entries 1–10 and 22–101,
discarding entries 11–21. -/
theorem C2_compaction_keeps_first10_last80 (a : Agent) (m : Msg) (ev : ℚ)
    (hlen : a.experienceLog.length = 100) (hev : ev > 3/10) :
    (a.integrateExperience m ev).experienceLog =
      a.experienceLog.take 10 ++
        (a.experienceLog ++
          [({ sequence := m.sequence, fromId := m.fromId, fromName := m.fromName,
              summary := Agent.summarize m.content, evaluation := ev,
              timestamp := m.timestamp } : ExperienceRecord)]).drop 21 := by
  have hlen1 :
      (a.experienceLog ++
        [({ sequence := m.sequence, fromId := m.fromId, fromName := m.fromName,
            summary := Agent.summarize m.content, evaluation := ev,
            timestamp := m.timestamp } : ExperienceRecord)]).length = 101 := by
    simp [hlen]
  simp only [Agent.integrateExperience, jsSliceLast, if_pos hev, hlen1]
  norm_num
  omega

theorem C2_compaction_witness :
    agentFullLog.experienceLog.length = 100 ∧ (1 : ℚ) > 3/10 ∧
    (agentFullLog.integrateExperience msg101 1).experienceLog =
      agentFullLog.experienceLog.take 10 ++
        (agentFullLog.experienceLog ++
          [({ sequence := msg101.sequence, fromId := msg101.fromId,
              fromName := msg101.fromName, summary := Agent.summarize msg101.content,
              evaluation := 1, timestamp := msg101.timestamp } : ExperienceRecord)]).drop
          21 :=
  ⟨by with_unfolding_all rfl, by norm_num,
    C2_compaction_keeps_first10_last80 agentFullLog msg101 1
      (by with_unfolding_all rfl) (by norm_num)⟩

/-- C4: `processMessage` from a sender that is not in the active inhabitant set
returns null, leaves the whole world state unchanged, and emits nothing (no
handler runs). -/
theorem C4_unknown_sender_no_side_effect (w : World) (m : MsgInput)
    (h : alistGet w.inhabitants m.fromId = none) :
    w.processMessage m = (none, w) ∧ ∀ hs, runOp (.message m hs) w = w := by
  have hp : w.processMessage m = (none, w) := by
    unfold World.processMessage
    rw [h]
  refine ⟨hp, fun hs => ?_⟩
  simp only [runOp, hp]

theorem C4_witness :
    alistGet World.empty.inhabitants msgDirectAB.fromId = none ∧
    World.empty.processMessage msgDirectAB = (none, World.empty) ∧
    runOp (.message msgDirectAB []) World.empty = World.empty :=
  ⟨rfl, (C4_unknown_sender_no_side_effect World.empty msgDirectAB rfl).1,
    (C4_unknown_sender_no_side_effect World.empty msgDirectAB rfl).2 []⟩

/-- C5 counterexample: the claim says `shouldRespond` is false for the agent's
own messages for any target, but a message from the agent to itself hits the
direct-address check first and yields true. -/
theorem C5_counterexample : baseAgent.shouldRespond selfMsg 0 wsTwo 0 := by
  simp [Agent.shouldRespond, baseAgent, selfMsg]

/-- C5 amended: for a message authored by the agent that is not addressed to the
agent itself, `shouldRespond` is false unconditionally (any evaluation, world
state, and random draw). -/
theorem C5_own_message_not_to_self_never_responds (a : Agent) (m : Msg) (ev : ℚ)
    (ws : WorldState) (r : ℝ) (hfrom : m.fromId = a.id) (hto : m.toId ≠ a.id) :
    ¬ a.shouldRespond m ev ws r := by
  simp [Agent.shouldRespond, hfrom, hto]

theorem C5_own_message_witness :
    ownMsgToB.fromId = baseAgent.id ∧ ownMsgToB.toId ≠ baseAgent.id ∧
    ¬ baseAgent.shouldRespond ownMsgToB 0 wsTwo 0 :=
  ⟨rfl, by decide,
    C5_own_message_not_to_self_never_responds baseAgent ownMsgToB 0 wsTwo 0 rfl
      (by decide)⟩

/-- C6: after A and B enter and A sends exactly two direct messages to B,
`relationships[A][B]` has entanglement 0.2 and `relationships[B][A]` has
entanglement 0.1, and both edges are non-default with 2 interactions. -/
theorem C6_two_direct_messages_asymmetric_entanglement :
    worldC6.edge "A" "B" =
      some { model := "non-default", entanglement := 1/5, interactions := 2,
             lastInteraction := some 4 } ∧
    worldC6.edge "B" "A" =
      some { model := "non-default", entanglement := 1/10, interactions := 2,
             lastInteraction := some 4 } :=
  ⟨by with_unfolding_all rfl, by with_unfolding_all rfl⟩

/-- C7: with A and B active on a fresh default edge, each broadcast from A
increments `relationships[A][B].interactions` and updates its last-interaction
sequence while leaving entanglement at 0; the edge is still default after two
broadcasts and becomes non-default exactly at the third. -/
theorem C7_broadcast_promotion_threshold :
    worldBroadcast1.edge "A" "B" =
      some { model := "default", entanglement := 0, interactions := 1,
             lastInteraction := some 3 } ∧
    worldBroadcast2.edge "A" "B" =
      some { model := "default", entanglement := 0, interactions := 2,
             lastInteraction := some 4 } ∧
    worldBroadcast3.edge "A" "B" =
      some { model := "non-default", entanglement := 0, interactions := 3,
             lastInteraction := some 5 } :=
  ⟨by with_unfolding_all rfl, by with_unfolding_all rfl, by with_unfolding_all rfl⟩

/-- Clamping to [-1, 1] with the JS min/max pair. -/
theorem jsClamp_bounds (x : ℚ) :
    -1 ≤ jsMin 1 (jsMax (-1) x) ∧ jsMin 1 (jsMax (-1) x) ≤ 1 := by
  unfold jsMin jsMax
  split_ifs <;> constructor <;> linarith

/-- C8: every evaluation lies in [-1, 1]; and a directly addressed message that
contains a question mark, matches one of the agent's interests, and comes from
a modelled sender with trust above 0.5 evaluates to exactly 1 (0.6 + 0.3 +
0.15 + 0.15 = 1.2, clamped to 1). -/
theorem C8_evaluate_bounds_and_saturation :
    (∀ (a : Agent) (m : Msg), -1 ≤ (a.evaluate m).1 ∧ (a.evaluate m).1 ≤ 1) ∧
    (∀ (a : Agent) (m : Msg) (mo : ModelOfOther), m.toId = a.id →
      jsIncludes (jsToLower m.content) "?" = true →
      (∃ i ∈ a.interests, jsIncludes (jsToLower m.content) (jsToLower i) = true) →
      alistGet a.models m.fromId = some mo → mo.trust > 1/2 →
      (a.evaluate m).1 = 1) := by
  constructor
  · intro a m
    exact jsClamp_bounds _
  · intro a m mo hto hq hint hmo htr
    show a.evaluateWeight m = 1
    have hany : a.interests.any
        (fun i => jsIncludes (jsToLower m.content) (jsToLower i)) = true :=
      List.any_eq_true.mpr hint
    simp only [Agent.evaluateWeight, hmo, if_pos hto, if_pos hq, if_pos htr,
      if_pos hany]
    norm_num [jsMin, jsMax]

theorem C8_saturation_witness :
    msgC8.toId = agentC8.id ∧
    jsIncludes (jsToLower msgC8.content) "?" = true ∧
    (∃ i ∈ agentC8.interests,
      jsIncludes (jsToLower msgC8.content) (jsToLower i) = true) ∧
    alistGet agentC8.models msgC8.fromId =
      some { name := "Bob", beliefs := [], style := "unknown", predictedValues := [],
             trust := 7/10, messageCount := 3, lastSeen := some 0,
             theirModelOfMe := { trust := 1/2, interest := 1/2 } } ∧
    (7/10 : ℚ) > 1/2 ∧ (agentC8.evaluate msgC8).1 = 1 :=
  ⟨rfl, by with_unfolding_all rfl,
    ⟨"math", by simp [agentC8, baseAgent], by with_unfolding_all rfl⟩,
    by with_unfolding_all rfl, by norm_num,
    C8_evaluate_bounds_and_saturation.2 agentC8 msgC8 _ rfl
      (by with_unfolding_all rfl)
      ⟨"math", by simp [agentC8, baseAgent], by with_unfolding_all rfl⟩
      (by with_unfolding_all rfl) (by norm_num)⟩

/-- C9: a message whose target is the agent's own id makes `shouldRespond` true
regardless of the evaluation, the world state, and the random draw. -/
theorem C9_direct_address_forces_response (a : Agent) (m : Msg) (ev : ℚ)
    (ws : WorldState) (r : ℝ) (h : m.toId = a.id) :
    a.shouldRespond m ev ws r := by
  simp [Agent.shouldRespond, h]

theorem C9_direct_address_witness :
    msgC8.toId = agentC8.id ∧ agentC8.shouldRespond msgC8 0 wsTwo 0 :=
  ⟨rfl, C9_direct_address_forces_response agentC8 msgC8 0 wsTwo 0 rfl⟩

/-- C10: `processMessage` never validates the recipient. For any active sender
and any `to` value whatsoever, the message event is recorded (appended to
memory), classified, emitted (handlers run), and returned; and when `to` is an
id that never entered the world (no relationship map of its own and no incoming
edge from the sender), the relationship graph is left entirely unchanged. -/
theorem C10_recipient_never_validated (w : World) (m : MsgInput) (s : Inhabitant)
    (h : alistGet w.inhabitants m.fromId = some s) :
    (∃ e, (w.processMessage m).1 = some e ∧ e.classification.isSome ∧
      (w.processMessage m).2.memory = w.memory ++ [e]) ∧
    (∀ hs, runOp (.message m hs) w = runOps hs (w.processMessage m).2) ∧
    (m.toId ≠ "world" → alistGet w.relationships m.toId = none →
      w.edge m.fromId m.toId = none →
      (w.processMessage m).2.relationships = w.relationships) := by
  refine ⟨?_, ?_, ?_⟩
  · unfold World.processMessage
    rw [h]
    refine ⟨_, rfl, rfl, ?_⟩
    show (World.updateRelationship _ _ _ _).memory.dropLast ++ _ = _
    rw [updateRelationship_memory]
    simp [World.recordEvent]
  · intro hs
    simp only [runOp, World.processMessage, h]
  · intro h1 h2 h3
    unfold World.processMessage
    rw [h]
    show (World.updateRelationship _ _ _ _).relationships = _
    have h4 := updateRelationship_unknown_to
      (w.recordEvent (.message m.fromId s.name m.toId m.content m.replyTo)).2
      m.fromId m.toId
      (w.recordEvent (.message m.fromId s.name m.toId m.content m.replyTo)).1.sequence
      h1 h2 h3
    rw [h4]
    rfl

theorem C10_witness :
    alistGet worldAB.inhabitants msgToUnknown.fromId = some inhA ∧
    (∃ e, (worldAB.processMessage msgToUnknown).1 = some e ∧
      e.classification.isSome ∧
      (worldAB.processMessage msgToUnknown).2.memory = worldAB.memory ++ [e]) ∧
    runOp (.message msgToUnknown []) worldAB =
      runOps [] (worldAB.processMessage msgToUnknown).2 ∧
    msgToUnknown.toId ≠ "world" ∧
    alistGet worldAB.relationships msgToUnknown.toId = none ∧
    worldAB.edge msgToUnknown.fromId msgToUnknown.toId = none ∧
    (worldAB.processMessage msgToUnknown).2.relationships = worldAB.relationships :=
  ⟨by with_unfolding_all rfl,
    (C10_recipient_never_validated worldAB msgToUnknown inhA
      (by with_unfolding_all rfl)).1,
    (C10_recipient_never_validated worldAB msgToUnknown inhA
      (by with_unfolding_all rfl)).2.1 [],
    by decide, by with_unfolding_all rfl, by with_unfolding_all rfl,
    (C10_recipient_never_validated worldAB msgToUnknown inhA
      (by with_unfolding_all rfl)).2.2 (by decide) (by with_unfolding_all rfl)
      (by with_unfolding_all rfl)⟩

/-- Appending one event with the next sequence number preserves the invariant. -/
theorem seqInv_append {w w' : World} {e : Event} (h : SeqInv w)
    (hmem : w'.memory = w.memory ++ [e]) (he : e.sequence = w.memory.length + 1)
    (hc : w'.sequenceCounter = w.sequenceCounter + 1) : SeqInv w' := by
  obtain ⟨h1, h2⟩ := h
  obtain ⟨mem', sc', inh', rel', u', c'⟩ := w'
  dsimp only at hmem hc ⊢
  subst hmem
  refine ⟨by rw [hc, h1]; simp, ?_⟩
  intro i hi
  rcases Nat.lt_or_ge i w.memory.length with hlt | hge
  · rw [List.getElem_append_left hlt]
    exact h2 i hlt
  · have hei : i = w.memory.length := by
      simp only [List.length_append, List.length_singleton] at hi
      omega
    rw [List.getElem_concat_length w.memory e i hei, he, hei]

theorem recordEvent_seqInv (w : World) (d : EventData) (h : SeqInv w) :
    SeqInv (w.recordEvent d).2 := by
  refine seqInv_append h rfl ?_ rfl
  show w.sequenceCounter + 1 = w.memory.length + 1
  rw [h.1]

theorem enter_seqInv (w : World) (i : Inhabitant) (h : SeqInv w) :
    SeqInv (w.enter i).2 :=
  recordEvent_seqInv _ _ h

theorem leave_seqInv (w : World) (id : String) (h : SeqInv w) :
    SeqInv (w.leave id).2 := by
  unfold World.leave
  cases hid : alistGet w.inhabitants id with
  | none => exact h
  | some i => exact recordEvent_seqInv _ _ h

theorem processMessage_seqInv (w : World) (m : MsgInput) (h : SeqInv w) :
    SeqInv (w.processMessage m).2 := by
  unfold World.processMessage
  cases hs : alistGet w.inhabitants m.fromId with
  | none => exact h
  | some s =>
    apply seqInv_append h
    · show (World.updateRelationship _ _ _ _).memory.dropLast ++ _ = _
      rw [updateRelationship_memory,
        show (w.recordEvent
            (.message m.fromId s.name m.toId m.content m.replyTo)).2.memory =
          w.memory ++
            [(w.recordEvent
              (.message m.fromId s.name m.toId m.content m.replyTo)).1] from rfl,
        List.dropLast_concat]
    · show w.sequenceCounter + 1 = w.memory.length + 1
      rw [h.1]
    · show (World.updateRelationship _ _ _ _).sequenceCounter = _
      rw [updateRelationship_sequenceCounter]
      rfl

mutual

theorem runOp_seqInv (o : Op) (w : World) (h : SeqInv w) : SeqInv (runOp o w) := by
  cases o with
  | enter i hs =>
    rw [runOp]
    exact runOps_seqInv hs _ (enter_seqInv w i h)
  | leave id hs =>
    rw [runOp]
    have hW := leave_seqInv w id h
    rcases hp : w.leave id with ⟨r, w'⟩
    rw [hp] at hW
    cases r with
    | none => exact hW
    | some e => exact runOps_seqInv hs w' hW
  | message m hs =>
    rw [runOp]
    have hW := processMessage_seqInv w m h
    rcases hp : w.processMessage m with ⟨r, w'⟩
    rw [hp] at hW
    cases r with
    | none => exact hW
    | some e => exact runOps_seqInv hs w' hW

theorem runOps_seqInv (os : List Op) (w : World) (h : SeqInv w) :
    SeqInv (runOps os w) := by
  cases os with
  | nil =>
    rw [runOps]
    exact h
  | cons o os =>
    rw [runOps]
    exact runOps_seqInv os _ (runOp_seqInv o w h)

end

/-- C3: for every sequence of operations — including reentrant `processMessage`,
`enter`, or `leave` calls issued by subscribed handlers during emission — the
events recorded in world memory carry sequence numbers 1, 2, 3, …: the `i`-th
recorded event (0-indexed) has sequence `i + 1`, so numbering starts at 1 and is
strictly increasing with no gaps or repeats. -/
theorem C3_sequence_numbers_dense (ops : List Op) :
    ∀ i, (h : i < (runOps ops World.empty).memory.length) →
      ((runOps ops World.empty).memory[i]).sequence = i + 1 :=
  (runOps_seqInv ops World.empty
    ⟨rfl, fun i hi => absurd hi (Nat.not_lt_zero i)⟩).2

theorem C3_witness :
    ∃ h : 3 < (runOps opsReentrant World.empty).memory.length,
      ((runOps opsReentrant World.empty).memory.get ⟨3, h⟩).sequence = 3 + 1 :=
  ⟨by with_unfolding_all decide, C3_sequence_numbers_dense opsReentrant 3 _⟩

end WorldIM
